import Mathlib

/-!
Shallow embedding of the response-cache and multi-source aggregation subsystem
of the Script-hub repository: `CacheManager` and the API client wrappers from
`api_clients.py`, and `SEOAnalysisEngine._run_parallel_analysis` from
`seo_analysis_engine.py`.  Pure functions of the Python source become Lean
functions; the on-disk cache directory becomes an explicit `Store` value
threaded through each call; Python exceptions become `Except` values, with the
source's `try/except` blocks modelled as explicit handlers.
-/

namespace ScriptHub

/-- JSON values, the payloads stored by the cache (`api_clients.py` moves
`Dict` payloads through `json.dump`/`json.load`).  Numbers are modelled as
integers, which covers every parameter map the repository builds; string
escaping inside `dumps` is elided since no claim depends on it. -/
inductive Json where
  | null
  | bool (b : Bool)
  | num (n : Int)
  | str (s : String)
  | arr (elems : List Json)
  | obj (fields : List (String × Json))


/-- Ordering of key/value pairs by key, the order `json.dumps(..., sort_keys=True)`
serializes a dict in (Python sorts the items of the dict by key). -/
def keyLE {β : Type} (a b : String × β) : Prop := a.1 ≤ b.1

instance {β : Type} : DecidableRel (@keyLE β) :=
  fun a b => inferInstanceAs (Decidable (a.1 ≤ b.1))

instance {β : Type} : IsTotal (String × β) keyLE := ⟨fun a b => le_total a.1 b.1⟩

instance {β : Type} : IsTrans (String × β) keyLE := ⟨fun _ _ _ h1 h2 => le_trans h1 h2⟩

/-- Sorting of an association list by key, as `sort_keys=True` does. -/
def sortFields {β : Type} (l : List (String × β)) : List (String × β) :=
  List.insertionSort keyLE l

mutual
/-- Model of Python `json.dumps(v, sort_keys=True)` with its default
separators: object keys are sorted lexicographically at every level, so the
serialization has no insertion-order dependence. -/
def dumps : Json → String
  | .null => "null"
  | .bool true => "true"
  | .bool false => "false"
  | .num n => toString n
  | .str s => "\"" ++ s ++ "\""
  | .arr xs => "[" ++ String.intercalate ", " (dumpsList xs) ++ "]"
  | .obj fs =>
      "\x7b" ++
        String.intercalate ", "
          ((sortFields (dumpsFields fs)).map
            (fun kv => "\"" ++ kv.1 ++ "\": " ++ kv.2)) ++
      "\x7d"

/-- Serialization of the elements of a JSON array, in order. -/
def dumpsList : List Json → List String
  | [] => []
  | x :: xs => dumps x :: dumpsList xs

/-- Serialization of the values of a JSON object's fields (sorting of the
serialized fields happens in `dumps`; a Python dict's keys are unique, so
sorting the pairs by key before or after serializing the values is the same). -/
def dumpsFields : List (String × Json) → List (String × String)
  | [] => []
  | (k, v) :: fs => (k, dumps v) :: dumpsFields fs
end

/-- Model of `CacheManager.get_cache_key`: the MD5 hex digest of
`f"\x7bapi_name\x7d_\x7bjson.dumps(params, sort_keys=True)\x7d"`.  The digest is an
opaque fingerprint to every caller, so the development is parametric in the
digest function `md5hex`; every theorem below holds for the real MD5. -/
def get_cache_key (md5hex : String → String) (api_name : String)
    (params : List (String × Json)) : String :=
  md5hex (api_name ++ "_" ++ dumps (Json.obj params))

/-- One cache file, as a reader can observe it: a parseable entry
`\x7b"timestamp": ..., "data": ...\x7d` (timestamps modelled as integer seconds,
standing for the ISO-8601 strings round-tripped through
`datetime.fromisoformat`), or an unparseable/incomplete file. -/
inductive FileContent where
  | valid (timestamp : Int) (data : Json)
  | corrupt


/-- A cache file together with its accessibility: opening an `unreadable`
file (permission denied) raises before any content is seen. -/
inductive FileState where
  | readable (c : FileContent)
  | unreadable


/-- The cache directory: file name (the hex key) to file, if present. -/
def Store : Type := String → Option FileState

/-- Writing (or replacing) the file named `k`. -/
def setKey (k : String) (v : Option FileState) (s : Store) : Store :=
  fun q => if q = k then v else s q

/-- Model of `Path.unlink` of the file named `k`. -/
def eraseKey (k : String) (s : Store) : Store :=
  fun q => if q = k then none else s q

/-- An empty cache directory. -/
def emptyStore : Store := fun _ => none

/-- Model of Python `str.lower()` on the (ASCII) environment value: each
character lowered in place. -/
def pyLower (s : String) : String := ⟨s.data.map Char.toLower⟩

/-- Model of the per-call environment check
`os.getenv('ENABLE_CACHING', 'true').lower() == 'true'` performed at the top
of both `CacheManager.get` and `CacheManager.set`. -/
def cachingEnabled (envVar : Option String) : Bool :=
  pyLower (envVar.getD "true") == "true"

/-- Model of `CacheManager`: `duration` is `timedelta(hours=duration_hours)`,
kept in seconds. -/
structure CacheManager where
  duration : Int

/-- Construction `CacheManager(duration_hours=h)`. -/
def CacheManager.ofHours (h : Int) : CacheManager := ⟨h * 3600⟩

/-- Model of the body of `CacheManager.get` without its `try/except` handler:
storage faults (unreadable file, unparseable JSON) surface as exceptions.  The
result pairs the returned value with the cache directory after the call; the
`unlink` of an expired entry is the only mutation. -/
def CacheManager.getNoHandler (md5hex : String → String) (cm : CacheManager)
    (envCaching : Option String) (now : Int) (store : Store)
    (api_name : String) (params : List (String × Json)) :
    Except String (Option Json × Store) :=
  if cachingEnabled envCaching = false then .ok (none, store)
  else
    let key := get_cache_key md5hex api_name params
    match store key with
    | none => .ok (none, store)
    | some .unreadable => .error "PermissionError"
    | some (.readable .corrupt) => .error "JSONDecodeError"
    | some (.readable (.valid t d)) =>
        if now - t > cm.duration then .ok (none, eraseKey key store)
        else .ok (some d, store)

/-- Model of `CacheManager.get`: the body above wrapped in the source's
`except Exception: return None` handler, so it never raises and every storage
fault degrades to a miss with the directory unchanged. -/
def CacheManager.get (md5hex : String → String) (cm : CacheManager)
    (envCaching : Option String) (now : Int) (store : Store)
    (api_name : String) (params : List (String × Json)) :
    Option Json × Store :=
  match CacheManager.getNoHandler md5hex cm envCaching now store api_name params with
  | .ok r => r
  | .error _ => (none, store)

/-- Outcome of the file write attempted by `CacheManager.set`: `fail` stands
for any exception raised by `open`/`json.dump` (disk full, permission error,
missing directory). -/
inductive WriteOutcome where
  | ok
  | fail (msg : String)


/-- Model of the body of `CacheManager.set` without its `try/except` handler:
a failing write surfaces as an exception. -/
def CacheManager.setNoHandler (md5hex : String → String) (cm : CacheManager)
    (envCaching : Option String) (now : Int) (w : WriteOutcome) (store : Store)
    (api_name : String) (params : List (String × Json)) (data : Json) :
    Except String Store :=
  if cachingEnabled envCaching = false then .ok store
  else
    let key := get_cache_key md5hex api_name params
    match w with
    | .ok => .ok (setKey key (some (.readable (.valid now data))) store)
    | .fail msg => .error msg

/-- Model of `CacheManager.set`: the body above wrapped in the source's
`except Exception as e: print(...)` handler — the write error is swallowed and
the directory is left as it was. -/
def CacheManager.set (md5hex : String → String) (cm : CacheManager)
    (envCaching : Option String) (now : Int) (w : WriteOutcome) (store : Store)
    (api_name : String) (params : List (String × Json)) (data : Json) :
    Store :=
  match CacheManager.setNoHandler md5hex cm envCaching now w store api_name params data with
  | .ok s => s
  | .error _ => store

/-- Model of the dataclass `APIResponse` of `api_clients.py`. -/
structure APIResponse where
  success : Bool
  data : Json
  error : Option String := none
  api_provider : Option String := none
  cached : Bool := false

/-- Python truthiness of a JSON value: `None`, `False`, `0`, the empty string,
the empty list and the empty dict are falsy. -/
def truthyJson : Json → Bool
  | .null => false
  | .bool b => b
  | .num n => n != 0
  | .str s => s != ""
  | .arr xs => !xs.isEmpty
  | .obj fs => !fs.isEmpty

/-- Python truthiness of the `Optional[Dict]` returned by `CacheManager.get`,
as tested by `if cached_result:` in every client wrapper. -/
def truthyOption : Option Json → Bool
  | none => false
  | some j => truthyJson j

/-- Rendering of a timestamp, standing for `datetime.now().isoformat()`. -/
def isoformat (t : Int) : String := toString t

/-- Model of `AnthropicClient`: only the API key read at construction. -/
structure AnthropicClient where
  api_key : Option String

/-- Model of `AnthropicClient.analyze_seo_data`.  Inputs that the Python
method obtains from ambient state are passed explicitly: `pyStr` models
Python `str()` on the `seo_data` dict (only its digest enters the cache
parameters), `net` is the outcome of the `client.messages.create` network
call (`Except.error` when it raises), `w` the outcome of the cache write.
The result pairs the returned `APIResponse` with the cache directory after
the call. -/
def AnthropicClient.analyze_seo_data (md5hex : String → String)
    (pyStr : Json → String) (c : AnthropicClient) (cm : CacheManager)
    (envCaching : Option String) (now : Int) (w : WriteOutcome)
    (net : Except String String) (store : Store)
    (website_url : String) (seo_data : Json) (analysis_type : String) :
    APIResponse × Store :=
  if c.api_key.getD "" = "" then
    (⟨false, .obj [], some "Anthropic API key not configured", none, false⟩, store)
  else
    let cache_params : List (String × Json) :=
      [("website", .str website_url),
       ("analysis_type", .str analysis_type),
       ("data_hash", .str ((md5hex (pyStr seo_data)).take 10))]
    let g := CacheManager.get md5hex cm envCaching now store "anthropic_seo_analysis" cache_params
    if truthyOption g.1 then
      (⟨true, g.1.getD .null, none, some "anthropic", true⟩, g.2)
    else
      match net with
      | .error e =>
          (⟨false, .obj [], some ("Claude API error: " ++ e), none, false⟩, g.2)
      | .ok text =>
          let result : Json := .obj [("analysis", .str text), ("timestamp", .str (isoformat now))]
          let store2 := CacheManager.set md5hex cm envCaching now w g.2
            "anthropic_seo_analysis" cache_params result
          (⟨true, result, none, some "anthropic", false⟩, store2)

/-!
Aggregation: `SEOAnalysisEngine._run_parallel_analysis` submits each
`(key, api_call)` pair to a `ThreadPoolExecutor` and collects outcomes from
`concurrent.futures.as_completed(future_to_key, timeout=60)`.  A task is
abstracted by its terminal behaviour relative to that single 60-second batch
deadline.
-/

/-- Terminal behaviour of one submitted api_call: it completes within the
batch deadline with an `APIResponse`, completes by raising an exception whose
`str()` is `msg`, or is still unfinished when the 60-second `as_completed`
deadline expires. -/
inductive TaskBehavior where
  | returns (r : APIResponse)
  | raises (msg : String)
  | hangs

/-- One `(key, api_call)` pair of `api_calls`, abstracted by the call's
terminal behaviour. -/
structure AggTask where
  name : String
  behavior : TaskBehavior

/-- A value recorded in the `results` dict: `api_response.data` under the
task's key on success, or an error description under the key suffixed with
`_error` (the suffixed entry holds `api_response.error`, an optional string,
or `str(e)` for a raised exception). -/
inductive AggEntry where
  | payload (data : Json)
  | failure (err : Option String)

/-- One iteration of the `for future in as_completed(...)` loop body: the
`try` around `future.result()` turns a raised exception into a `_error`
entry, and an unsuccessful `APIResponse` is also recorded as a `_error`
entry; a `hangs` task never reaches the loop body. -/
def recordOutcome (acc : List (String × AggEntry)) (t : AggTask) :
    List (String × AggEntry) :=
  match t.behavior with
  | .returns r =>
      if r.success then acc ++ [(t.name, .payload r.data)]
      else acc ++ [(t.name ++ "_error", .failure r.error)]
  | .raises msg => acc ++ [(t.name ++ "_error", .failure (some msg))]
  | .hangs => acc

/-- Whether a task is still unfinished at the batch deadline. -/
def hangsB (t : AggTask) : Bool :=
  match t.behavior with
  | .hangs => true
  | _ => false

/-- Exception text of `concurrent.futures.as_completed` when its `timeout`
elapses with unfinished futures; it is raised at the `for` statement, outside
the `try/except` that guards only `future.result()`. -/
def asCompletedTimeoutError : String := "concurrent.futures.TimeoutError"

/-- Model of `SEOAnalysisEngine._run_parallel_analysis` from the point where
the tasks have been submitted.  `completionOrder` is the order in which
`as_completed` yields the finished futures — any permutation of the submitted
tasks.  If some task is still unfinished when the 60-second deadline expires,
`as_completed` raises `TimeoutError` outside the loop's `try/except`, the
local `results` dict is discarded, and the whole call errors; otherwise every
task's outcome is recorded and the `results` mapping is returned. -/
def runParallelAnalysis (tasks completionOrder : List AggTask) :
    Except String (List (String × AggEntry)) :=
  if tasks.any hangsB then .error asCompletedTimeoutError
  else .ok (completionOrder.foldl recordOutcome [])

/-- The key under which a completed task is recorded in the `results` dict. -/
def entryKey (t : AggTask) : String :=
  match t.behavior with
  | .returns r => if r.success then t.name else t.name ++ "_error"
  | _ => t.name ++ "_error"

/-- The value recorded in the `results` dict for a completed task. -/
def entryVal (t : AggTask) : AggEntry :=
  match t.behavior with
  | .returns r => if r.success then .payload r.data else .failure r.error
  | .raises msg => .failure (some msg)
  | .hangs => .failure none

/-- Model of `int(os.getenv('MAX_CONCURRENT_REQUESTS', '3'))` from
`SEOAnalysisEngine.__init__` (the environment value already parsed). -/
def maxWorkersFromEnv (envVar : Option Nat) : Nat := envVar.getD 3

/-!
Bounded worker pool: `_run_parallel_analysis` executes the submitted tasks on
`concurrent.futures.ThreadPoolExecutor(max_workers=self.max_workers)`.  The
pool is modelled operationally as a transition system: a submitted task is
`pending` until a worker picks it up, `running` while a worker executes it,
and `done` afterwards; a pending task can start only when fewer than
`max_workers` tasks are running.
-/

/-- State of one aggregation run on the worker pool: the submitted task names
that are queued, currently executing, and finished. -/
structure PoolState where
  pending : List String
  running : List String
  done : List String

/-- Initial pool state: all submitted tasks queued, none running. -/
def initPool (tasks : List String) : PoolState := ⟨tasks, [], []⟩

/-- Transitions of the bounded worker pool with `maxWorkers` workers: the
head of the queue starts when a worker is free (fewer than `maxWorkers`
running), and any running task may finish, freeing its worker. -/
inductive PoolStep (maxWorkers : Nat) : PoolState → PoolState → Prop
  | start (t : String) (pend run don : List String) :
      run.length < maxWorkers →
      PoolStep maxWorkers ⟨t :: pend, run, don⟩ ⟨pend, t :: run, don⟩
  | finish (t : String) (pend run1 run2 don : List String) :
      PoolStep maxWorkers ⟨pend, run1 ++ t :: run2, don⟩ ⟨pend, run1 ++ run2, t :: don⟩

/-- The pool states reachable during a run that submitted `tasks`. -/
def PoolReachable (maxWorkers : Nat) (tasks : List String) (s : PoolState) : Prop :=
  Relation.ReflTransGen (PoolStep maxWorkers) (initPool tasks) s

/-! ## Helper lemmas -/

/-- Unfolding of `dumpsFields` as a `List.map`. -/
theorem dumpsFields_eq_map : ∀ fs : List (String × Json),
    dumpsFields fs = fs.map (fun kv => (kv.1, dumps kv.2))
  | [] => rfl
  | (k, v) :: fs => by rw [dumpsFields, List.map_cons, dumpsFields_eq_map fs]

/-- Two key-sorted association lists that are permutations of each other and
have duplicate-free keys are equal (keys pin the positions, unique keys pin
the values). -/
theorem sorted_eq_of_perm_nodupKeys {β : Type} :
    ∀ {l1 l2 : List (String × β)}, l1.Perm l2 →
      l1.Sorted keyLE → l2.Sorted keyLE → (l1.map Prod.fst).Nodup → l1 = l2 := by
  intro l1
  induction l1 with
  | nil =>
    intro l2 hp _ _ _
    exact hp.nil_eq
  | cons a t1 ih =>
    intro l2 hp hs1 hs2 hnd
    cases l2 with
    | nil =>
      have := hp.eq_nil
      simp at this
    | cons b t2 =>
      have hab : a ∈ b :: t2 := hp.mem_iff.mp (List.mem_cons_self a t1)
      have hba : b ∈ a :: t1 := hp.symm.mem_iff.mp (List.mem_cons_self b t2)
      have heads : a = b := by
        rcases List.mem_cons.mp hab with h1 | h1
        · exact h1
        rcases List.mem_cons.mp hba with h2 | h2
        · exact h2.symm
        exfalso
        have hba2 : keyLE b a := (List.sorted_cons.mp hs2).1 a h1
        have hab2 : keyLE a b := (List.sorted_cons.mp hs1).1 b h2
        have hkey : a.1 = b.1 := le_antisymm hab2 hba2
        have hmem : a.1 ∈ t1.map Prod.fst := by
          rw [hkey]
          exact List.mem_map_of_mem Prod.fst h2
        rw [List.map_cons] at hnd
        exact (List.nodup_cons.mp hnd).1 hmem
      subst heads
      have htails : t1.Perm t2 := hp.cons_inv
      rw [List.map_cons] at hnd
      have := ih htails (List.sorted_cons.mp hs1).2 (List.sorted_cons.mp hs2).2
        (List.nodup_cons.mp hnd).2
      rw [this]

/-- Sorting by key is invariant under permutation of an association list with
duplicate-free keys. -/
theorem sortFields_eq_of_perm {β : Type} {l1 l2 : List (String × β)}
    (hp : l1.Perm l2) (hnd : (l1.map Prod.fst).Nodup) :
    sortFields l1 = sortFields l2 := by
  apply sorted_eq_of_perm_nodupKeys
  · exact (List.perm_insertionSort keyLE l1).trans
      (hp.trans (List.perm_insertionSort keyLE l2).symm)
  · exact List.sorted_insertionSort keyLE l1
  · exact List.sorted_insertionSort keyLE l2
  · have hper : ((List.insertionSort keyLE l1).map Prod.fst).Perm (l1.map Prod.fst) :=
      (List.perm_insertionSort keyLE l1).map Prod.fst
    exact hper.nodup_iff.mpr hnd

/-! ## Claims -/

/-- C4: for every operation name and every pair of parameter maps that are
equal as sets of key-value pairs (permutations of one another, with
duplicate-free keys as in any Python dict), the derived cache key is
identical — `json.dumps(..., sort_keys=True)` canonicalizes parameter order
inside `CacheManager.get_cache_key`. -/
theorem cache_key_deterministic (md5hex : String → String) (api_name : String)
    (p1 p2 : List (String × Json)) (hperm : p1.Perm p2)
    (hnd : (p1.map Prod.fst).Nodup) :
    get_cache_key md5hex api_name p1 = get_cache_key md5hex api_name p2 := by
  have hpf : (dumpsFields p1).Perm (dumpsFields p2) := by
    rw [dumpsFields_eq_map, dumpsFields_eq_map]
    exact hperm.map _
  have hknd : ((dumpsFields p1).map Prod.fst).Nodup := by
    rw [dumpsFields_eq_map, List.map_map]
    have h : (Prod.fst ∘ fun kv : String × Json => (kv.1, dumps kv.2)) = Prod.fst :=
      funext (fun kv => rfl)
    rw [h]
    exact hnd
  have hs : sortFields (dumpsFields p1) = sortFields (dumpsFields p2) :=
    sortFields_eq_of_perm hpf hknd
  have hd : dumps (Json.obj p1) = dumps (Json.obj p2) := by
    rw [dumps, dumps, hs]
  unfold get_cache_key
  rw [hd]

/-- Witness for C4 at a concrete input: the two orderings of the parameter
map with keys `q`, `n` yield the same key. -/
theorem cache_key_deterministic_witness :
    get_cache_key (fun s => s) "kw" [("q", Json.str "seo"), ("n", Json.num 3)]
      = get_cache_key (fun s => s) "kw" [("n", Json.num 3), ("q", Json.str "seo")] :=
  cache_key_deterministic (fun s => s) "kw"
    [("q", Json.str "seo"), ("n", Json.num 3)]
    [("n", Json.num 3), ("q", Json.str "seo")]
    (List.Perm.swap ("n", Json.num 3) ("q", Json.str "seo") [])
    (by simp)

/-- C3: with caching enabled, after `set` stores a payload at time `t0`, a
`get` issued strictly before the TTL has elapsed returns exactly the stored
payload with the store untouched (round-trip fidelity), and a `get` issued
after more than the TTL has elapsed returns a miss. -/
theorem cache_ttl_roundtrip (md5hex : String → String) (cm : CacheManager)
    (env : Option String) (store : Store) (api_name : String)
    (params : List (String × Json)) (payload : Json) (t0 t1 t2 : Int)
    (henv : cachingEnabled env = true) :
    (t1 - t0 < cm.duration →
      CacheManager.get md5hex cm env t1
        (CacheManager.set md5hex cm env t0 .ok store api_name params payload)
        api_name params
      = (some payload,
         CacheManager.set md5hex cm env t0 .ok store api_name params payload)) ∧
    (t2 - t0 > cm.duration →
      (CacheManager.get md5hex cm env t2
        (CacheManager.set md5hex cm env t0 .ok store api_name params payload)
        api_name params).1 = none) := by
  constructor
  · intro hfresh
    have hno : ¬(t1 - t0 > cm.duration) := by omega
    simp [CacheManager.set, CacheManager.setNoHandler, henv,
          CacheManager.get, CacheManager.getNoHandler, setKey, hno]
  · intro hexp
    simp [CacheManager.set, CacheManager.setNoHandler, henv,
          CacheManager.get, CacheManager.getNoHandler, setKey, hexp]

/-- Witness for C3 at a concrete input: TTL one hour, payload read back one
second after it was written. -/
theorem cache_ttl_roundtrip_witness :
    CacheManager.get (fun s => s) ⟨3600⟩ none 1
      (CacheManager.set (fun s => s) ⟨3600⟩ none 0 .ok emptyStore "kw" [] (Json.num 7))
      "kw" []
    = (some (Json.num 7),
       CacheManager.set (fun s => s) ⟨3600⟩ none 0 .ok emptyStore "kw" [] (Json.num 7)) :=
  (cache_ttl_roundtrip (fun s => s) ⟨3600⟩ none emptyStore "kw" [] (Json.num 7)
    0 1 9999 (by decide)).1 (by decide)

/-- C5: `get` never raises — whenever the unhandled body raises, the handled
`get` returns the very outcome of a cache miss, and a missing entry, an
unreadable file, and a corrupt file all produce that same outcome, with the
cache directory unchanged. -/
theorem cache_get_never_raises (md5hex : String → String) (cm : CacheManager)
    (env : Option String) (now : Int) (store : Store) (api_name : String)
    (params : List (String × Json)) :
    (∀ e, CacheManager.getNoHandler md5hex cm env now store api_name params
        = .error e →
      CacheManager.get md5hex cm env now store api_name params = (none, store)) ∧
    (store (get_cache_key md5hex api_name params) = none →
      CacheManager.get md5hex cm env now store api_name params = (none, store)) ∧
    (store (get_cache_key md5hex api_name params) = some .unreadable →
      CacheManager.get md5hex cm env now store api_name params = (none, store)) ∧
    (store (get_cache_key md5hex api_name params) = some (.readable .corrupt) →
      CacheManager.get md5hex cm env now store api_name params = (none, store)) := by
  refine ⟨?_, ?_, ?_, ?_⟩
  · intro e he
    simp [CacheManager.get, he]
  all_goals
    intro h
    rcases Bool.eq_false_or_eq_true (cachingEnabled env) with henv | henv <;>
      simp [CacheManager.get, CacheManager.getNoHandler, henv, h]

/-- Witness for C5 at a concrete input: a corrupt entry file yields a miss
with the directory unchanged. -/
theorem cache_get_never_raises_witness :
    CacheManager.get (fun s => s) ⟨0⟩ none 0
      (fun _ => some (.readable .corrupt)) "a" []
    = (none, fun _ => some (.readable .corrupt)) :=
  (cache_get_never_raises (fun s => s) ⟨0⟩ none 0
    (fun _ => some (.readable .corrupt)) "a" []).2.2.2 rfl

/-- C6: when the environment toggle disables caching, every `get` reports a
miss and every `set` is a no-op, so `set` then `get` for the same key misses;
the toggle is consulted on each call, so a `get` under a disabled environment
misses even on a store written while caching was enabled. -/
theorem cache_disabled_switch (md5hex : String → String) (cm : CacheManager)
    (env envOn : Option String) (t0 t1 : Int) (w : WriteOutcome) (store : Store)
    (api_name : String) (params : List (String × Json)) (payload : Json)
    (hoff : cachingEnabled env = false) :
    CacheManager.get md5hex cm env t1 store api_name params = (none, store) ∧
    CacheManager.set md5hex cm env t0 w store api_name params payload = store ∧
    (CacheManager.get md5hex cm env t1
        (CacheManager.set md5hex cm env t0 w store api_name params payload)
        api_name params).1 = none ∧
    (CacheManager.get md5hex cm env t1
        (CacheManager.set md5hex cm envOn t0 .ok store api_name params payload)
        api_name params).1 = none := by
  refine ⟨?_, ?_, ?_, ?_⟩ <;>
    simp [CacheManager.get, CacheManager.getNoHandler, CacheManager.set,
          CacheManager.setNoHandler, hoff]

/-- Witness for C6 at a concrete input: `ENABLE_CACHING=false` makes `get`
miss on an empty store. -/
theorem cache_disabled_switch_witness :
    CacheManager.get (fun s => s) ⟨0⟩ (some "false") 0 emptyStore "a" []
      = (none, emptyStore) :=
  (cache_disabled_switch (fun s => s) ⟨0⟩ (some "false") none 0 0 .ok emptyStore
    "a" [] Json.null (by decide)).1

/-- C7: with caching enabled, `set` persists an entry carrying the storage
timestamp and the payload under the canonical key, overwriting whatever the
store held there (the first conjunct holds for every prior store), leaves
every other key untouched, and a failing write is swallowed — the unhandled
body raises while `set` itself returns with the store unchanged. -/
theorem cache_set_persists (md5hex : String → String) (cm : CacheManager)
    (env : Option String) (t0 : Int) (store : Store) (api_name : String)
    (params : List (String × Json)) (payload : Json) (msg : String)
    (henv : cachingEnabled env = true) :
    CacheManager.set md5hex cm env t0 .ok store api_name params payload
        (get_cache_key md5hex api_name params)
      = some (.readable (.valid t0 payload)) ∧
    (∀ k, k ≠ get_cache_key md5hex api_name params →
      CacheManager.set md5hex cm env t0 .ok store api_name params payload k
        = store k) ∧
    CacheManager.set md5hex cm env t0 (.fail msg) store api_name params payload
      = store ∧
    CacheManager.setNoHandler md5hex cm env t0 (.fail msg) store api_name params payload
      = .error msg := by
  refine ⟨?_, ?_, ?_, ?_⟩
  · simp [CacheManager.set, CacheManager.setNoHandler, henv, setKey]
  · intro k hk
    simp [CacheManager.set, CacheManager.setNoHandler, henv, setKey, hk]
  · simp [CacheManager.set, CacheManager.setNoHandler, henv]
  · simp [CacheManager.setNoHandler, henv]

/-- Witness for C7 at a concrete input: the written file holds the timestamp
and the payload, under the canonical key, even though the store already had
an entry there. -/
theorem cache_set_persists_witness :
    CacheManager.set (fun s => s) ⟨0⟩ none 5 .ok
      (fun _ => some (.readable .corrupt)) "a" [] (Json.num 2)
      (get_cache_key (fun s => s) "a" [])
    = some (.readable (.valid 5 (Json.num 2))) :=
  (cache_set_persists (fun s => s) ⟨0⟩ none 5
    (fun _ => some (.readable .corrupt)) "a" [] (Json.num 2) "disk full" (by decide)).1

/-- C8: a `get` that encounters an entry older than the TTL deletes exactly
that entry from the store before returning a miss, and touches no other key —
expiry is lazy, performed by the read that finds the entry stale. -/
theorem cache_lazy_expiry (md5hex : String → String) (cm : CacheManager)
    (env : Option String) (now t0 : Int) (store : Store) (api_name : String)
    (params : List (String × Json)) (payload : Json)
    (henv : cachingEnabled env = true)
    (hstale : store (get_cache_key md5hex api_name params)
        = some (.readable (.valid t0 payload)))
    (hexp : now - t0 > cm.duration) :
    CacheManager.get md5hex cm env now store api_name params
      = (none, eraseKey (get_cache_key md5hex api_name params) store) ∧
    (eraseKey (get_cache_key md5hex api_name params) store)
        (get_cache_key md5hex api_name params) = none ∧
    (∀ k, k ≠ get_cache_key md5hex api_name params →
      (CacheManager.get md5hex cm env now store api_name params).2 k = store k) := by
  have h1 : CacheManager.get md5hex cm env now store api_name params
      = (none, eraseKey (get_cache_key md5hex api_name params) store) := by
    simp [CacheManager.get, CacheManager.getNoHandler, henv, hstale, hexp]
  refine ⟨h1, by simp [eraseKey], ?_⟩
  intro k hk
  rw [h1]
  simp [eraseKey, hk]

/-- Witness for C8 at a concrete input: a stale entry (age 5, TTL 0) is
deleted by the read that misses on it. -/
theorem cache_lazy_expiry_witness :
    CacheManager.get (fun s => s) ⟨0⟩ none 5
      (fun _ => some (.readable (.valid 0 (Json.num 1)))) "a" []
    = (none, eraseKey (get_cache_key (fun s => s) "a" [])
        (fun _ => some (.readable (.valid 0 (Json.num 1))))) :=
  (cache_lazy_expiry (fun s => s) ⟨0⟩ none 5 0
    (fun _ => some (.readable (.valid 0 (Json.num 1)))) "a" [] (Json.num 1)
    (by decide) rfl (by decide)).1

/-- Folding the loop body over completed tasks records exactly one entry per
task, in completion order. -/
theorem foldl_recordOutcome_eq_map :
    ∀ (l : List AggTask) (acc : List (String × AggEntry)),
      (∀ t ∈ l, hangsB t = false) →
      l.foldl recordOutcome acc = acc ++ l.map (fun t => (entryKey t, entryVal t)) := by
  intro l
  induction l with
  | nil => simp
  | cons t l ih =>
    intro acc hno
    rw [List.foldl_cons]
    have hh := hno t (List.mem_cons_self t l)
    have hrec : recordOutcome acc t = acc ++ [(entryKey t, entryVal t)] := by
      cases hb : t.behavior with
      | returns r =>
        by_cases hsucc : r.success = true <;>
          simp [recordOutcome, entryKey, entryVal, hb, hsucc]
      | raises m => simp [recordOutcome, entryKey, entryVal, hb]
      | hangs =>
        exfalso
        simp [hangsB, hb] at hh
    rw [hrec, ih _ (fun s hs => hno s (List.mem_cons_of_mem _ hs)),
        List.append_assoc]
    simp

/-- C1 (amended): for a run in which every submitted task completes within
the 60-second batch deadline, the returned mapping has exactly one entry per
task — keyed by the task's name on success (holding the payload), and by the
name suffixed `_error` on a raise or an error result (holding the error
description) — and one task's failure never prevents the other tasks'
entries; a task that outlives the deadline instead makes the whole run raise
(see the counterexample). -/
theorem aggregator_completeness (tasks order : List AggTask)
    (hperm : order.Perm tasks)
    (hnohang : ∀ t ∈ tasks, hangsB t = false)
    (hkeys : (tasks.map entryKey).Nodup) :
    ∃ m, runParallelAnalysis tasks order = .ok m ∧
      m.length = tasks.length ∧
      (∀ t ∈ tasks, (entryKey t, entryVal t) ∈ m) ∧
      (∀ t ∈ tasks, (m.map Prod.fst).count (entryKey t) = 1) := by
  have hnohang' : ∀ t ∈ order, hangsB t = false := fun t ht =>
    hnohang t (hperm.mem_iff.mp ht)
  have hany : tasks.any hangsB = false := by
    rw [List.any_eq_false]
    intro t ht
    simp [hnohang t ht]
  refine ⟨order.map (fun t => (entryKey t, entryVal t)), ?_, ?_, ?_, ?_⟩
  · rw [runParallelAnalysis, hany]
    simp [foldl_recordOutcome_eq_map order [] hnohang']
  · rw [List.length_map]
    exact hperm.length_eq
  · intro t ht
    exact List.mem_map_of_mem _ (hperm.mem_iff.mpr ht)
  · intro t ht
    have hmapmap : (order.map (fun t => (entryKey t, entryVal t))).map Prod.fst
        = order.map entryKey := by
      rw [List.map_map]
      rfl
    rw [hmapmap]
    have hnd : (order.map entryKey).Nodup :=
      ((hperm.map entryKey).nodup_iff).mpr hkeys
    exact List.count_eq_one_of_mem hnd
      (List.mem_map_of_mem entryKey (hperm.mem_iff.mpr ht))

/-- Witness for C1 at a concrete input: one successful task and one task
returning an error result; both entries appear, correctly tagged. -/
theorem aggregator_completeness_witness :
    ∃ m, runParallelAnalysis
        [⟨"dataforseo_domain", .returns ⟨true, .obj [("x", .num 1)], none, none, false⟩⟩,
         ⟨"dataforseo_audit", .returns ⟨false, .obj [], some "DataForSEO API error", none, false⟩⟩]
        [⟨"dataforseo_domain", .returns ⟨true, .obj [("x", .num 1)], none, none, false⟩⟩,
         ⟨"dataforseo_audit", .returns ⟨false, .obj [], some "DataForSEO API error", none, false⟩⟩]
      = .ok m ∧
      m.length = 2 ∧
      (∀ t ∈ ([⟨"dataforseo_domain", .returns ⟨true, .obj [("x", .num 1)], none, none, false⟩⟩,
         ⟨"dataforseo_audit", .returns ⟨false, .obj [], some "DataForSEO API error", none, false⟩⟩] : List AggTask),
        (entryKey t, entryVal t) ∈ m) ∧
      (∀ t ∈ ([⟨"dataforseo_domain", .returns ⟨true, .obj [("x", .num 1)], none, none, false⟩⟩,
         ⟨"dataforseo_audit", .returns ⟨false, .obj [], some "DataForSEO API error", none, false⟩⟩] : List AggTask),
        (m.map Prod.fst).count (entryKey t) = 1) :=
  aggregator_completeness
    [⟨"dataforseo_domain", .returns ⟨true, .obj [("x", .num 1)], none, none, false⟩⟩,
     ⟨"dataforseo_audit", .returns ⟨false, .obj [], some "DataForSEO API error", none, false⟩⟩]
    [⟨"dataforseo_domain", .returns ⟨true, .obj [("x", .num 1)], none, none, false⟩⟩,
     ⟨"dataforseo_audit", .returns ⟨false, .obj [], some "DataForSEO API error", none, false⟩⟩]
    (List.Perm.refl _)
    (by decide)
    (by decide)

/-- Counterexample for C1 as stated: two submitted tasks, the first succeeds,
the second is still unfinished when the 60-second `as_completed` deadline
expires.  The claim promises a mapping with one entry per task; instead the
`TimeoutError` raised at the `for` statement escapes `_run_parallel_analysis`
— no mapping is returned, and the successful task's entry is lost with it. -/
theorem aggregator_completeness_cex :
    runParallelAnalysis
      [⟨"dataforseo_domain", .returns ⟨true, .obj [("x", .num 1)], none, none, false⟩⟩,
       ⟨"dataforseo_audit", .hangs⟩]
      [⟨"dataforseo_domain", .returns ⟨true, .obj [("x", .num 1)], none, none, false⟩⟩]
      = .error asCompletedTimeoutError := rfl

/-- C2 (amended): when some submitted task does not complete within the
single 60-second `as_completed` batch deadline (there is no per-task
timeout), the run operation itself raises `TimeoutError` — the task is not
recorded as a per-task timeout failure, and no per-task entries at all are
returned. -/
theorem aggregator_timeout_raises (tasks order : List AggTask)
    (h : ∃ t ∈ tasks, hangsB t = true) :
    runParallelAnalysis tasks order = .error asCompletedTimeoutError := by
  rw [runParallelAnalysis, if_pos]
  obtain ⟨t, ht, hh⟩ := h
  exact List.any_eq_true.mpr ⟨t, ht, hh⟩

/-- Witness for C2 at a concrete input: a single hanging task makes the run
raise. -/
theorem aggregator_timeout_raises_witness :
    runParallelAnalysis [⟨"dataforseo_domain", .hangs⟩] []
      = .error asCompletedTimeoutError :=
  aggregator_timeout_raises [⟨"dataforseo_domain", .hangs⟩] []
    ⟨⟨"dataforseo_domain", .hangs⟩, List.mem_cons_self _ _, rfl⟩

/-- Counterexample for C2 as stated: a run containing a task that misses the
deadline yields `Except.error`, not a result mapping carrying a
timeout-tagged failure entry for that task. -/
theorem aggregator_timeout_cex :
    runParallelAnalysis [⟨"dataforseo_audit", .hangs⟩]
      [⟨"dataforseo_audit", .hangs⟩]
      = .error asCompletedTimeoutError := rfl

/-- C9: in every state reachable by the bounded worker pool of
`_run_parallel_analysis`, at most `maxWorkers` tasks are running — a pending
task starts only when a worker is free, so the peak number of concurrently
running tasks never exceeds `max_workers`. -/
theorem pool_concurrency_bound (maxWorkers : Nat) (tasks : List String)
    (s : PoolState) (h : PoolReachable maxWorkers tasks s) :
    s.running.length ≤ maxWorkers := by
  induction h with
  | refl => simp [initPool]
  | tail _ hstep ih =>
    cases hstep with
    | start t pend run don hlt => simpa using hlt
    | finish t pend run1 run2 don =>
      simp only [List.length_append, List.length_cons] at ih ⊢
      omega

/-- Witness for C9 at a concrete input: three submitted tasks on two workers;
after two tasks have started, the running count is (and stays) within the
bound. -/
theorem pool_concurrency_bound_witness :
    (PoolState.mk ["c"] ["b", "a"] []).running.length ≤ 2 :=
  pool_concurrency_bound 2 ["a", "b", "c"] ⟨["c"], ["b", "a"], []⟩
    (Relation.ReflTransGen.tail
      (Relation.ReflTransGen.tail Relation.ReflTransGen.refl
        (PoolStep.start "a" ["b", "c"] [] [] (by decide)))
      (PoolStep.start "b" ["c"] ["a"] [] (by decide)))

/-- C10: a cached payload that is an empty dict is falsy in Python, so the
client wrapper's `if cached_result:` treats the lookup as a miss and performs
the network call again — even though `CacheManager.get` returned the stored
payload.  The wrapper's response is the network-path response, not a cache
hit. -/
theorem client_empty_payload_refetch (md5hex : String → String)
    (pyStr : Json → String) (apiKey : String) (cm : CacheManager)
    (env : Option String) (t0 now : Int) (w : WriteOutcome) (text : String)
    (store : Store) (url aty : String) (seo_data : Json)
    (hkey : apiKey ≠ "")
    (henv : cachingEnabled env = true)
    (hstore : store (get_cache_key md5hex "anthropic_seo_analysis"
        [("website", .str url), ("analysis_type", .str aty),
         ("data_hash", .str ((md5hex (pyStr seo_data)).take 10))])
      = some (.readable (.valid t0 (.obj []))))
    (hfresh : ¬(now - t0 > cm.duration)) :
    (CacheManager.get md5hex cm env now store "anthropic_seo_analysis"
        [("website", .str url), ("analysis_type", .str aty),
         ("data_hash", .str ((md5hex (pyStr seo_data)).take 10))]).1
      = some (.obj []) ∧
    (AnthropicClient.analyze_seo_data md5hex pyStr ⟨some apiKey⟩ cm env now w
        (.ok text) store url seo_data aty).1.cached = false ∧
    (AnthropicClient.analyze_seo_data md5hex pyStr ⟨some apiKey⟩ cm env now w
        (.ok text) store url seo_data aty).1.data
      = .obj [("analysis", .str text), ("timestamp", .str (isoformat now))] := by
  have hget : (CacheManager.get md5hex cm env now store "anthropic_seo_analysis"
      [("website", .str url), ("analysis_type", .str aty),
       ("data_hash", .str ((md5hex (pyStr seo_data)).take 10))]).1
      = some (.obj []) := by
    simp [CacheManager.get, CacheManager.getNoHandler, henv, hstore, hfresh]
  refine ⟨hget, ?_, ?_⟩ <;>
    simp [AnthropicClient.analyze_seo_data, hkey, hget, truthyOption, truthyJson]

/-- Witness for C10 at a concrete input: the stored empty-dict payload is
returned by `get` yet the wrapper answers from the network path
(`cached = false`). -/
theorem client_empty_payload_refetch_witness :
    (AnthropicClient.analyze_seo_data (fun s => s) (fun _ => "") ⟨some "sk"⟩ ⟨0⟩
        none 0 .ok (.ok "T")
        (fun _ => some (.readable (.valid 0 (.obj [])))) "u" Json.null "c").1.cached
      = false :=
  (client_empty_payload_refetch (fun s => s) (fun _ => "") "sk" ⟨0⟩ none 0 0 .ok "T"
    (fun _ => some (.readable (.valid 0 (.obj [])))) "u" "c" Json.null
    (by decide) (by decide) rfl (by decide)).2.1

end ScriptHub
